import Mathlib

/-!
Verification of the consumer-side feed-distribution pipeline of
`golang-cassandra-kafka-feed` (package `worker`): a shallow embedding of
`New`, `Worker.Run`, `Worker.readLoop`, `Worker.processLoop` and
`Worker.Close`, together with theorems settling the spec's claims about
them.  Go `int` values are modelled as `Int`, byte payloads as abstract
`Nat` identifiers or `List Nat`, durations in milliseconds as `Nat`.
-/

namespace Worker

/-- A decoded post, from `internal/models/models.go`: `Post` has `ID`,
`AuthorID`, `Body` (strings) and a creation timestamp (modelled as `Nat`). -/
structure Post where
  id : String
  authorID : String
  body : String
  created : Nat
  deriving DecidableEq, Repr

/-! ## Constructor and Run-time size fallbacks -/

/-- Embedding of `New` (worker.go): `workerCount <= 0` falls back to
`runtime.NumCPU()` (a parameter here), then `jobQueueSize <= 0` falls back to
ten times the (possibly defaulted) worker count.  Returns the
`(workerCount, jobQueueSize)` fields of the constructed `Worker`. -/
def new (numCPU workerCount jobQueueSize : Int) : Int × Int :=
  let wc := if workerCount ≤ 0 then numCPU else workerCount
  let jq := if jobQueueSize ≤ 0 then wc * 10 else jobQueueSize
  (wc, jq)

/-- Embedding of the normalization at the top of `Worker.Run` (worker.go):
a non-positive `workerCount` becomes `1`, a non-positive `jobQueueSize`
becomes `10`, before the job channel and the pool are created. -/
def runNormalize (workerCount jobQueueSize : Int) : Int × Int :=
  let wc := if workerCount ≤ 0 then 1 else workerCount
  let jq := if jobQueueSize ≤ 0 then 10 else jobQueueSize
  (wc, jq)

/-! ## Back-off of the ingestion loop -/

/-- Embedding of the back-off computation in `Worker.readLoop`:
`time.Duration(math.Min(1000, math.Pow(2, float64(retry)))) * time.Millisecond`.
For every retry count the float computation is exact up to the saturation
point (`2^r` is exactly representable and exceeds `1000` from `r = 10` on),
so the value in milliseconds is `min 1000 (2 ^ r)`. -/
def backoff (retry : Nat) : Nat :=
  min 1000 (2 ^ retry)

/-! ## Worker.Close -/

/-- Outcome of `Worker.Close`: which of the two resource closes were
attempted, and the error returned to the caller. -/
structure CloseResult where
  readerCloseAttempted : Bool
  storeCloseAttempted : Bool
  returned : Option String
  deriving DecidableEq, Repr

/-- Embedding of `Worker.Close` (worker.go): the Kafka reader is closed
first; if that returns an error the method logs it and returns it at once —
the store close is *not* reached.  Only when the reader close succeeds is
`store.Close()` (which has no error return) invoked, and `nil` returned.
`readerErr` is the error produced by `reader.Close()` (`none` = success). -/
def close (readerErr : Option String) : CloseResult :=
  match readerErr with
  | some e => { readerCloseAttempted := true, storeCloseAttempted := false, returned := some e }
  | none => { readerCloseAttempted := true, storeCloseAttempted := true, returned := none }

/-! ## Ingestion loop (`Worker.readLoop`)

One iteration of `readLoop` either observes cancellation at the top
`select` (return), or calls `reader.ReadMessage`.  A read error triggers a
cancellable back-off wait and increments the retry counter; a successful
read resets the counter to zero, skips empty payloads after a short
cancellable idle wait, and otherwise pushes the payload into the job
channel via a `select` that can enqueue, observe cancellation (return), or
time out after 100 ms (the payload is then abandoned and the loop
continues).  A run of the loop is driven by the sequence of outcomes the
environment produces, embedded as `ReadEvent`s. -/

/-- Branch taken by the `select` that pushes a payload into the job
channel: the send fires, the context is observed done, or the 100 ms
timeout fires. -/
inductive PushOutcome where
  | enq
  | ctxDone
  | timeout
  deriving DecidableEq, Repr

/-- Environment outcome of one `readLoop` iteration: cancellation observed
at the top `select`; a read error (with the flag telling whether the
context fires during the back-off wait); an empty payload (same flag for
the 50 ms idle wait); or a successful read of a non-empty payload with the
branch its push `select` takes. -/
inductive ReadEvent where
  | ctxDone
  | readErr (cancelDuringWait : Bool)
  | readEmpty (cancelDuringWait : Bool)
  | readOk (payload : Nat) (push : PushOutcome)
  deriving DecidableEq, Repr

/-- Observable record of a `readLoop` run: payloads enqueued into the job
channel, payloads abandoned on push timeout, and the back-off delays slept
after read errors, each in order. -/
structure ReadTrace where
  enqueued : List Nat
  dropped : List Nat
  delays : List Nat
  deriving DecidableEq, Repr

/-- Embedding of `Worker.readLoop` as a function of the outcome sequence
and the current retry counter (initially `0`); the run stops at the first
returning outcome or when the outcome sequence is exhausted. -/
def readLoop : List ReadEvent → Nat → ReadTrace
  | [], _ => ⟨[], [], []⟩
  | ReadEvent.ctxDone :: _, _ => ⟨[], [], []⟩
  | ReadEvent.readErr c :: rest, retry =>
    if c then ⟨[], [], [backoff retry]⟩
    else
      let t := readLoop rest (retry + 1)
      ⟨t.enqueued, t.dropped, backoff retry :: t.delays⟩
  | ReadEvent.readEmpty c :: rest, _ =>
    if c then ⟨[], [], []⟩ else readLoop rest 0
  | ReadEvent.readOk p push :: rest, _ =>
    match push with
    | PushOutcome.enq =>
      let t := readLoop rest 0
      ⟨p :: t.enqueued, t.dropped, t.delays⟩
    | PushOutcome.ctxDone => ⟨[], [], []⟩
    | PushOutcome.timeout =>
      let t := readLoop rest 0
      ⟨t.enqueued, p :: t.dropped, t.delays⟩

/-! ## Processing worker (`Worker.processLoop`), cancellation-free body

For a payload taken from the job channel, `processLoop` decodes it as a
`Post` (`continue` on failure), fetches the author's followers
(`continue` on error), and otherwise dispatches one `AddToFeed(u, post)`
per follower.  With the context never cancelled, the fan-out dispatches
every follower and `fanoutWG.Wait()` joins them, so the store calls made
for one payload are exactly one per element of the follower list.
`json.Unmarshal` and the store are external collaborators, passed in as
functions; payloads are byte strings (`List Nat`). -/

/-- `AddToFeed` calls performed for one payload by the body of
`Worker.processLoop`, in dispatch order, in a run without cancellation:
none on decode failure, none on follower-fetch error, otherwise one call
`(u, post)` per follower `u`. -/
def processOne (getFollowers : String → Except String (List String))
    (decode : List Nat → Option Worker.Post) (data : List Nat) :
    List (String × Worker.Post) :=
  match decode data with
  | none => []
  | some post =>
    match getFollowers post.authorID with
    | Except.error _ => []
    | Except.ok followers => followers.map (fun u => (u, post))

/-- `AddToFeed` calls performed by `Worker.processLoop` over a sequence of
payloads received from the job channel, in a run without cancellation: the
loop handles one payload at a time and `continue`s to the next one after a
decode failure or a follower-fetch error. -/
def processLoopCalls (getFollowers : String → Except String (List String))
    (decode : List Nat → Option Worker.Post) : List (List Nat) →
    List (String × Worker.Post)
  | [] => []
  | d :: rest =>
    processOne getFollowers decode d ++ processLoopCalls getFollowers decode rest

/-! ## Fan-out sub-pipeline with cancellation (small-step)

The fan-out block of `Worker.processLoop` iterates over the follower list;
each iteration `select`s on `ctx.Done()` (with a `default` branch), so once
the context is done the next iteration `return`s from `processLoop`
directly — *skipping* the `fanoutWG.Wait()` that follows the loop.
Otherwise it acquires one of the 20 semaphore slots and launches a
goroutine performing `AddToFeed`.  When the loop runs off the end of the
list, `fanoutWG.Wait()` blocks until every launched goroutine has finished.
We embed this as a labelled transition system: interleavings are label
sequences, `fanStep` is the (deterministic per label) successor function,
and a label maps to `none` when that transition is not enabled. -/

/-- Control position of the processing worker inside the fan-out block:
still in the follower loop, blocked in `fanoutWG.Wait()`, returned from
`processLoop` via the loop's `ctx.Done()` branch, or past the `Wait`. -/
inductive FanPhase where
  | loop
  | waiting
  | returnedEarly
  | returnedNormal
  deriving DecidableEq, Repr

/-- State of one fan-out invocation: whether the context is done, the
followers not yet considered by the loop, the launched `AddToFeed`
goroutines not yet finished, the finished ones, and the worker's control
position. -/
structure FanState where
  ctxDone : Bool
  pending : List String
  inFlight : List String
  completed : List String
  phase : FanPhase
  deriving DecidableEq, Repr

/-- Schedulable transitions of one fan-out invocation. -/
inductive FanLabel where
  /-- the context becomes done -/
  | cancel
  /-- the loop's `default` branch: acquire a semaphore slot and launch the
  `AddToFeed` goroutine for the next follower (enabled only while the
  context is not done and fewer than 20 writes are in flight) -/
  | dispatch
  /-- the loop's `ctx.Done()` branch: `return` from `processLoop` without
  reaching `fanoutWG.Wait()` (enabled once the context is done, while
  followers remain) -/
  | ret
  /-- the loop runs off the end of the follower list and control reaches
  `fanoutWG.Wait()` -/
  | loopExit
  /-- a launched `AddToFeed` goroutine finishes and releases its slot -/
  | complete (u : String)
  /-- `fanoutWG.Wait()` returns (enabled only when no write is in flight) -/
  | waitDone
  deriving DecidableEq, Repr

/-- Semaphore capacity: `const fanoutLimit = 20` in `Worker.processLoop`. -/
def fanoutLimit : Nat := 20

/-- One transition of the fan-out machine; `none` when the label is not
enabled in the given state. -/
def fanStep (l : FanLabel) (s : FanState) : Option FanState :=
  match l with
  | FanLabel.cancel =>
    if s.ctxDone then none else some { s with ctxDone := true }
  | FanLabel.dispatch =>
    match s.pending with
    | [] => none
    | u :: rest =>
      if s.phase = FanPhase.loop ∧ s.ctxDone = false ∧
          s.inFlight.length < fanoutLimit then
        some { s with pending := rest, inFlight := u :: s.inFlight }
      else none
  | FanLabel.ret =>
    if s.phase = FanPhase.loop ∧ s.ctxDone = true ∧ s.pending ≠ [] then
      some { s with phase := FanPhase.returnedEarly }
    else none
  | FanLabel.loopExit =>
    if s.phase = FanPhase.loop ∧ s.pending = [] then
      some { s with phase := FanPhase.waiting }
    else none
  | FanLabel.complete u =>
    if u ∈ s.inFlight then
      some { s with inFlight := s.inFlight.erase u,
                    completed := u :: s.completed }
    else none
  | FanLabel.waitDone =>
    if s.phase = FanPhase.waiting ∧ s.inFlight = [] then
      some { s with phase := FanPhase.returnedNormal }
    else none

/-- Run the fan-out machine over a label sequence; `none` when some label
is not enabled where it occurs. -/
def fanRun : List FanLabel → FanState → Option FanState
  | [], s => some s
  | l :: ls, s => (fanStep l s).bind (fanRun ls)

/-- Initial state of one fan-out invocation on a fetched follower list:
context not yet done, nothing launched, worker entering the loop. -/
def fanInit (followers : List String) : FanState :=
  ⟨false, followers, [], [], FanPhase.loop⟩

/-- The worker has returned control from the fan-out (by either path). -/
def FanState.Returned (s : FanState) : Prop :=
  s.phase = FanPhase.returnedEarly ∨ s.phase = FanPhase.returnedNormal

instance (s : FanState) : Decidable s.Returned := by
  unfold FanState.Returned
  infer_instance

/-! ## Lifecycle coordinator (`Worker.Run`, small-step)

`Run` starts `workerCount` copies of `processLoop` on a buffered `jobs`
channel, runs `readLoop` in its own goroutine-free position (the calling
goroutine), and, when `readLoop` returns, executes `close(jobs)` followed
by `wg.Wait()`.  Every `return` in `readLoop` is guarded by the context
being done, so the close happens only after cancellation.  A `processLoop`
iteration `select`s between `ctx.Done()` (return) and a channel receive
(process a payload, or return when the channel is closed and empty).  We
embed the whole of `Run` as a labelled transition system over these
events. -/

/-- Schedulable transitions of a `Run` invocation. -/
inductive RunLabel where
  /-- the context becomes done -/
  | cancel
  /-- `readLoop` reads a payload and its push `select` sends it into the
  `jobs` channel (room available) -/
  | readPush (p : Nat)
  /-- `readLoop` reads a payload, the channel stays full for 100 ms, and
  the payload is abandoned -/
  | readDrop (p : Nat)
  /-- `readLoop` observes the done context and returns -/
  | readerRet
  /-- the coordinator executes `close(jobs)` (the line after the
  `readLoop` call) -/
  | close
  /-- worker `i`'s receive fires: it takes the oldest payload from the
  channel and processes it -/
  | recv (i : Nat)
  /-- worker `i`'s `ctx.Done()` branch fires: it returns -/
  | retCtx (i : Nat)
  /-- worker `i`'s receive fires on the closed, empty channel
  (`ok = false`): it returns -/
  | retClosed (i : Nat)
  /-- `wg.Wait()` returns: the coordinator finishes -/
  | finish
  deriving DecidableEq, Repr

/-- State of a `Run` invocation: context flag, whether `readLoop` has
returned, whether `close(jobs)` has executed, the channel contents and
capacity, one returned-flag per processing worker, and whether `Run` has
returned. -/
structure RunState where
  ctxDone : Bool
  readerDone : Bool
  closed : Bool
  buffer : List Nat
  cap : Nat
  workers : List Bool
  finished : Bool
  deriving DecidableEq, Repr

/-- One transition of the `Run` machine; `none` when the label is not
enabled in the given state. -/
def runStep (l : RunLabel) (s : RunState) : Option RunState :=
  match l with
  | RunLabel.cancel =>
    if s.ctxDone then none else some { s with ctxDone := true }
  | RunLabel.readPush p =>
    if s.readerDone = false ∧ s.buffer.length < s.cap then
      some { s with buffer := s.buffer ++ [p] }
    else none
  | RunLabel.readDrop _ =>
    if s.readerDone = false ∧ s.cap ≤ s.buffer.length then some s else none
  | RunLabel.readerRet =>
    if s.readerDone = false ∧ s.ctxDone = true then
      some { s with readerDone := true }
    else none
  | RunLabel.close =>
    if s.readerDone = true ∧ s.closed = false then
      some { s with closed := true }
    else none
  | RunLabel.recv i =>
    match s.buffer with
    | [] => none
    | _ :: rest =>
      if s.workers.getD i true = false then some { s with buffer := rest }
      else none
  | RunLabel.retCtx i =>
    if s.workers.getD i true = false ∧ s.ctxDone = true then
      some { s with workers := s.workers.set i true }
    else none
  | RunLabel.retClosed i =>
    if s.workers.getD i true = false ∧ s.closed = true ∧ s.buffer = [] then
      some { s with workers := s.workers.set i true }
    else none
  | RunLabel.finish =>
    if s.closed = true ∧ s.workers.all (fun b => b) ∧ s.finished = false then
      some { s with finished := true }
    else none

/-- Run the `Run` machine over a label sequence; `none` when some label is
not enabled where it occurs. -/
def runExec : List RunLabel → RunState → Option RunState
  | [], s => some s
  | l :: ls, s => (runStep l s).bind (runExec ls)

/-- Initial state of `Run` with channel capacity `cap` and `n` processing
workers. -/
def runInit (cap n : Nat) : RunState :=
  ⟨false, false, false, [], cap, List.replicate n false, false⟩

end Worker

/-! ## Claims -/

/-- C9: for every pair of constructor arguments, a non-positive
`workerCount` makes the constructed worker's pool size the available CPU
parallelism and a positive one is kept unchanged; a non-positive
`jobQueueSize` makes the job-buffer capacity ten times the (possibly
defaulted) pool size and a positive one is kept unchanged. -/
theorem new_constructor_defaults (numCPU workerCount jobQueueSize : Int) :
    (workerCount ≤ 0 → (Worker.new numCPU workerCount jobQueueSize).1 = numCPU) ∧
    (0 < workerCount → (Worker.new numCPU workerCount jobQueueSize).1 = workerCount) ∧
    (jobQueueSize ≤ 0 → (Worker.new numCPU workerCount jobQueueSize).2 =
      (Worker.new numCPU workerCount jobQueueSize).1 * 10) ∧
    (0 < jobQueueSize → (Worker.new numCPU workerCount jobQueueSize).2 = jobQueueSize) := by
  have hnew : Worker.new numCPU workerCount jobQueueSize =
      (if workerCount ≤ 0 then numCPU else workerCount,
       if jobQueueSize ≤ 0 then
         (if workerCount ≤ 0 then numCPU else workerCount) * 10
       else jobQueueSize) := rfl
  rw [hnew]
  split_ifs <;> simp_all

/-- Witness for C9 at concrete inputs. -/
theorem new_constructor_defaults_witness :
    ((-3 : Int) ≤ 0 → (Worker.new 8 (-3) 0).1 = 8) ∧
    ((0 : Int) < -3 → (Worker.new 8 (-3) 0).1 = -3) ∧
    ((0 : Int) ≤ 0 → (Worker.new 8 (-3) 0).2 = (Worker.new 8 (-3) 0).1 * 10) ∧
    ((0 : Int) < 0 → (Worker.new 8 (-3) 0).2 = 0) :=
  new_constructor_defaults 8 (-3) 0

/-- C10: `Worker.Run` itself replaces a still non-positive `workerCount`
by `1` and a still non-positive `jobQueueSize` by `10` (fallbacks distinct
from the constructor's), keeps positive values unchanged, and therefore
always starts a positive number of workers on a positively-sized buffer. -/
theorem run_size_fallbacks (workerCount jobQueueSize : Int) :
    (workerCount ≤ 0 → (Worker.runNormalize workerCount jobQueueSize).1 = 1) ∧
    (0 < workerCount → (Worker.runNormalize workerCount jobQueueSize).1 = workerCount) ∧
    (jobQueueSize ≤ 0 → (Worker.runNormalize workerCount jobQueueSize).2 = 10) ∧
    (0 < jobQueueSize → (Worker.runNormalize workerCount jobQueueSize).2 = jobQueueSize) ∧
    0 < (Worker.runNormalize workerCount jobQueueSize).1 ∧
    0 < (Worker.runNormalize workerCount jobQueueSize).2 := by
  have hrn : Worker.runNormalize workerCount jobQueueSize =
      (if workerCount ≤ 0 then 1 else workerCount,
       if jobQueueSize ≤ 0 then 10 else jobQueueSize) := rfl
  rw [hrn]
  split_ifs <;> simp_all

/-- Witness for C10 at concrete inputs. -/
theorem run_size_fallbacks_witness :
    ((0 : Int) ≤ 0 → (Worker.runNormalize 0 (-5)).1 = 1) ∧
    ((0 : Int) < 0 → (Worker.runNormalize 0 (-5)).1 = 0) ∧
    ((-5 : Int) ≤ 0 → (Worker.runNormalize 0 (-5)).2 = 10) ∧
    ((0 : Int) < -5 → (Worker.runNormalize 0 (-5)).2 = -5) ∧
    0 < (Worker.runNormalize 0 (-5)).1 ∧
    0 < (Worker.runNormalize 0 (-5)).2 :=
  run_size_fallbacks 0 (-5)

/-- C2, counterexample: when the queue-client (reader) close fails,
`Worker.Close` returns that error immediately and the store close is never
attempted, so the claim that both closes are always attempted is false. -/
theorem close_skips_store_counterexample :
    (Worker.close (some "close failed")).readerCloseAttempted = true ∧
    (Worker.close (some "close failed")).storeCloseAttempted = false ∧
    (Worker.close (some "close failed")).returned = some "close failed" := by
  exact ⟨rfl, rfl, rfl⟩

/-- C2, amended: `Worker.Close` always attempts the queue-client close and
surfaces its error to the caller; the store close is attempted exactly when
the queue-client close succeeds — a queue-client close failure returns at
once and skips the store close. -/
theorem close_attempts_amended (readerErr : Option String) :
    (Worker.close readerErr).readerCloseAttempted = true ∧
    ((Worker.close readerErr).storeCloseAttempted = true ↔ readerErr = none) ∧
    (Worker.close readerErr).returned = readerErr := by
  cases readerErr <;> simp [Worker.close]

/-- C5: a payload whose push times out after the job buffer stays full for
100 ms is abandoned: it is recorded as dropped, contributes nothing to the
enqueued payloads, and the loop simply continues reading the remaining
events (with the retry counter still reset); moreover, across any run, a
payload value is enqueued at most as many times as the environment yields
it with an `enq` push outcome, so a dropped payload is never enqueued or
retried later unless it is read again. -/
theorem readLoop_timeout_drops (p q : Nat) (evs : List Worker.ReadEvent) (r : Nat) :
    Worker.readLoop (Worker.ReadEvent.readOk p Worker.PushOutcome.timeout :: evs) r =
      { enqueued := (Worker.readLoop evs 0).enqueued,
        dropped := p :: (Worker.readLoop evs 0).dropped,
        delays := (Worker.readLoop evs 0).delays } ∧
    (∀ evs2 : List Worker.ReadEvent, ∀ r2 : Nat,
      (Worker.readLoop evs2 r2).enqueued.count q ≤
        evs2.count (Worker.ReadEvent.readOk q Worker.PushOutcome.enq)) := by
  refine ⟨rfl, fun evs2 => ?_⟩
  induction evs2 with
  | nil => intro r2; simp [Worker.readLoop]
  | cons e rest ih =>
    intro r2
    match e with
    | Worker.ReadEvent.ctxDone => simp [Worker.readLoop]
    | Worker.ReadEvent.readErr c =>
      by_cases hc : c
      · simp [Worker.readLoop, hc]
      · simp [Worker.readLoop, hc, List.count_cons]
        exact ih _
    | Worker.ReadEvent.readEmpty c =>
      by_cases hc : c
      · simp [Worker.readLoop, hc]
      · simp [Worker.readLoop, hc, List.count_cons]
        exact ih _
    | Worker.ReadEvent.readOk p' push =>
      match push with
      | Worker.PushOutcome.enq =>
        by_cases hp : p' = q
        · subst hp
          simp [Worker.readLoop, List.count_cons]
          exact ih _
        · simp [Worker.readLoop, List.count_cons, hp]
          exact ih _
      | Worker.PushOutcome.ctxDone => simp [Worker.readLoop]
      | Worker.PushOutcome.timeout =>
        simp [Worker.readLoop, List.count_cons]
        exact ih _

/-- C4: the ingestion loop's back-off delay never exceeds the 1000 ms
ceiling and is non-decreasing in the retry count (an exponential saturated
at the ceiling); and after a successful read the retry counter is reset to
zero — the continuation of the loop is independent of the previous retry
count, and an error right after a success sleeps `backoff 0 = 1`, the
minimum delay. -/
theorem backoff_capped_monotone_reset (r s : Nat) (h : r ≤ s) (p : Nat)
    (push : Worker.PushOutcome) (c : Bool) (evs : List Worker.ReadEvent)
    (r' : Nat) :
    Worker.backoff s ≤ 1000 ∧
    Worker.backoff r ≤ Worker.backoff s ∧
    Worker.readLoop (Worker.ReadEvent.readOk p push :: evs) r =
      Worker.readLoop (Worker.ReadEvent.readOk p push :: evs) r' ∧
    (Worker.readLoop (Worker.ReadEvent.readOk p Worker.PushOutcome.enq ::
        Worker.ReadEvent.readErr c :: evs) r).delays.head? =
      some (Worker.backoff 0) ∧
    Worker.backoff 0 = 1 := by
  refine ⟨min_le_left _ _,
    min_le_min (le_refl 1000) (Nat.pow_le_pow_right (by norm_num) h), ?_, ?_, rfl⟩
  · cases push <;> rfl
  · cases c <;> rfl

/-- Witness for C4 at concrete inputs. -/
theorem backoff_capped_monotone_reset_witness :
    Worker.backoff 12 ≤ 1000 ∧
    Worker.backoff 3 ≤ Worker.backoff 12 ∧
    Worker.readLoop (Worker.ReadEvent.readOk 7 Worker.PushOutcome.enq :: []) 3 =
      Worker.readLoop (Worker.ReadEvent.readOk 7 Worker.PushOutcome.enq :: []) 9 ∧
    (Worker.readLoop (Worker.ReadEvent.readOk 7 Worker.PushOutcome.enq ::
        Worker.ReadEvent.readErr true :: []) 3).delays.head? =
      some (Worker.backoff 0) ∧
    Worker.backoff 0 = 1 :=
  backoff_capped_monotone_reset 3 12 (by decide) 7 Worker.PushOutcome.enq true [] 9

/-- C6: a payload that fails to decode as a `Post` produces zero
`AddToFeed` calls, and the processing worker neither crashes nor returns —
the calls of a run starting at that payload are exactly the calls of the
run on the remaining payloads. -/
theorem processLoop_decode_failure (gf : String → Except String (List String))
    (decode : List Nat → Option Worker.Post) (d : List Nat)
    (rest : List (List Nat)) (hdec : decode d = none) :
    Worker.processOne gf decode d = [] ∧
    Worker.processLoopCalls gf decode (d :: rest) =
      Worker.processLoopCalls gf decode rest := by
  have h1 : Worker.processOne gf decode d = [] := by
    unfold Worker.processOne
    rw [hdec]
  refine ⟨h1, ?_⟩
  show Worker.processOne gf decode d ++ Worker.processLoopCalls gf decode rest = _
  rw [h1, List.nil_append]

/-- Witness for C6 at concrete inputs. -/
theorem processLoop_decode_failure_witness :
    Worker.processOne (fun _ => Except.ok ["u1"]) (fun _ => none) [1] = [] ∧
    Worker.processLoopCalls (fun _ => Except.ok ["u1"]) (fun _ => none) [[1]] =
      Worker.processLoopCalls (fun _ => Except.ok ["u1"]) (fun _ => none) [] :=
  processLoop_decode_failure (fun _ => Except.ok ["u1"]) (fun _ => none) [1] [] rfl

/-- C7: a successfully decoded post whose follower fetch returns an error
produces zero `AddToFeed` calls (no partial fan-out) and is not re-queued —
the worker continues, the calls of the run being exactly those of the run
on the remaining payloads. -/
theorem processLoop_getFollowers_error (gf : String → Except String (List String))
    (decode : List Nat → Option Worker.Post) (d : List Nat)
    (rest : List (List Nat)) (P : Worker.Post) (e : String)
    (hdec : decode d = some P) (hgf : gf P.authorID = Except.error e) :
    Worker.processOne gf decode d = [] ∧
    Worker.processLoopCalls gf decode (d :: rest) =
      Worker.processLoopCalls gf decode rest := by
  have h1 : Worker.processOne gf decode d = [] := by
    simp [Worker.processOne, hdec, hgf]
  refine ⟨h1, ?_⟩
  show Worker.processOne gf decode d ++ Worker.processLoopCalls gf decode rest = _
  rw [h1, List.nil_append]

/-- Witness for C7 at concrete inputs. -/
theorem processLoop_getFollowers_error_witness :
    Worker.processOne (fun _ => Except.error "down")
      (fun _ => some ⟨"p1", "a1", "b", 0⟩) [1] = [] ∧
    Worker.processLoopCalls (fun _ => Except.error "down")
      (fun _ => some ⟨"p1", "a1", "b", 0⟩) [[1]] =
      Worker.processLoopCalls (fun _ => Except.error "down")
        (fun _ => some ⟨"p1", "a1", "b", 0⟩) [] :=
  processLoop_getFollowers_error (fun _ => Except.error "down")
    (fun _ => some ⟨"p1", "a1", "b", 0⟩) [1] [] ⟨"p1", "a1", "b", 0⟩ "down" rfl rfl

/-- Helper: under a successful decode and follower fetch, the calls of one
`processLoop` body are exactly the follower list mapped to `AddToFeed`
arguments. -/
theorem processOne_eq_map (gf : String → Except String (List String))
    (decode : List Nat → Option Worker.Post) (d : List Nat)
    (P : Worker.Post) (F : List String)
    (hdec : decode d = some P) (hgf : gf P.authorID = Except.ok F) :
    Worker.processOne gf decode d = F.map (fun u => (u, P)) := by
  simp [Worker.processOne, hdec, hgf]

/-- C1: for a payload decoding to post `P` whose follower fetch succeeds
with a duplicate-free follower list `F` of length `k`, a cancellation-free,
error-free run of the fan-out performs exactly `k` `AddToFeed` calls —
exactly one `(u, P)` call per follower `u` of `F`, every call carrying `P`
unchanged and addressed to a member of `F`. -/
theorem processOne_fanout_exact (gf : String → Except String (List String))
    (decode : List Nat → Option Worker.Post) (d : List Nat)
    (P : Worker.Post) (F : List String)
    (hdec : decode d = some P) (hgf : gf P.authorID = Except.ok F)
    (hnd : F.Nodup) :
    (Worker.processOne gf decode d).length = F.length ∧
    (∀ u, u ∈ F → @List.count (String × Worker.Post) instBEqOfDecidableEq
      (u, P) (Worker.processOne gf decode d) = 1) ∧
    (∀ call, call ∈ Worker.processOne gf decode d →
      call.2 = P ∧ call.1 ∈ F) := by
  have hmap := processOne_eq_map gf decode d P F hdec hgf
  rw [hmap]
  refine ⟨List.length_map F _, fun u hu => ?_, fun call hc => ?_⟩
  · have hinj : Function.Injective (fun u : String => (u, P)) := by
      intro a b hab
      exact congrArg Prod.fst hab
    exact (List.count_map_of_injective F _ hinj u).trans
      (List.count_eq_one_of_mem hnd hu)
  · rcases List.mem_map.mp hc with ⟨u, hu, rfl⟩
    exact ⟨rfl, hu⟩

/-- Witness for C1 at concrete inputs: a two-follower author. -/
theorem processOne_fanout_exact_witness :
    (Worker.processOne
        (fun a => if a = "a1" then Except.ok ["u1", "u2"] else Except.error "e")
        (fun d => if d = [1] then some ⟨"p1", "a1", "hello", 5⟩ else none)
        [1]).length = (["u1", "u2"] : List String).length ∧
    (∀ u, u ∈ (["u1", "u2"] : List String) →
      @List.count (String × Worker.Post) instBEqOfDecidableEq
        (u, ⟨"p1", "a1", "hello", 5⟩)
        (Worker.processOne
          (fun a => if a = "a1" then Except.ok ["u1", "u2"] else Except.error "e")
          (fun d => if d = [1] then some ⟨"p1", "a1", "hello", 5⟩ else none)
          [1]) = 1) ∧
    (∀ call, call ∈ Worker.processOne
        (fun a => if a = "a1" then Except.ok ["u1", "u2"] else Except.error "e")
        (fun d => if d = [1] then some ⟨"p1", "a1", "hello", 5⟩ else none)
        [1] → call.2 = (⟨"p1", "a1", "hello", 5⟩ : Worker.Post) ∧
          call.1 ∈ (["u1", "u2"] : List String)) :=
  processOne_fanout_exact
    (fun a => if a = "a1" then Except.ok ["u1", "u2"] else Except.error "e")
    (fun d => if d = [1] then some ⟨"p1", "a1", "hello", 5⟩ else none)
    [1] ⟨"p1", "a1", "hello", 5⟩ ["u1", "u2"] rfl rfl (by decide)

/-- Helper: a single fan-out transition preserves the invariant that a
worker which has returned through `fanoutWG.Wait()` has no `AddToFeed`
write in flight. -/
theorem fanStep_normal_inv (l : Worker.FanLabel) (s t : Worker.FanState)
    (hs : s.phase = Worker.FanPhase.returnedNormal → s.inFlight = [])
    (h : Worker.fanStep l s = some t) :
    t.phase = Worker.FanPhase.returnedNormal → t.inFlight = [] := by
  cases l <;> simp only [Worker.fanStep] at h <;>
    (repeat' split at h) <;>
    first
      | exact Option.noConfusion h
      | (obtain rfl := Option.some.inj h; intro hph; simp_all)

/-- Helper: the fan-out invariant along a whole label sequence. -/
theorem fanRun_normal_inv (ls : List Worker.FanLabel) (s t : Worker.FanState)
    (hs : s.phase = Worker.FanPhase.returnedNormal → s.inFlight = [])
    (h : Worker.fanRun ls s = some t) :
    t.phase = Worker.FanPhase.returnedNormal → t.inFlight = [] := by
  induction ls generalizing s with
  | nil =>
    obtain rfl := Option.some.inj h
    exact hs
  | cons l ls ih =>
    simp only [Worker.fanRun] at h
    rcases Option.bind_eq_some.mp h with ⟨u, hstep, hrest⟩
    exact ih u (fanStep_normal_inv l s u hs hstep) hrest

/-- C8, counterexample: with two followers, the interleaving "dispatch the
first follower, the context becomes done, the loop's `ctx.Done()` branch
fires" reaches a state in which the worker has returned control from the
fan-out (indeed from the whole of `processLoop`) while the dispatched
`AddToFeed` write is still in flight: the `return` inside the loop skips
`fanoutWG.Wait()`, so the claim that control returns only after all
dispatched writes complete is false. -/
theorem fanout_cancel_skips_wait_counterexample :
    Worker.fanRun
        [Worker.FanLabel.dispatch, Worker.FanLabel.cancel, Worker.FanLabel.ret]
        (Worker.fanInit ["u1", "u2"]) =
      some ⟨true, ["u2"], ["u1"], [], Worker.FanPhase.returnedEarly⟩ ∧
    Worker.FanState.Returned
      ⟨true, ["u2"], ["u1"], [], Worker.FanPhase.returnedEarly⟩ ∧
    (⟨true, ["u2"], ["u1"], [], Worker.FanPhase.returnedEarly⟩ :
      Worker.FanState).inFlight ≠ [] := by
  refine ⟨by decide, Or.inl rfl, by simp⟩

/-- C8, amended: on the normal path — the loop exhausts the follower list —
control returns to the owning worker only after every dispatched
`AddToFeed` write has completed (`fanoutWG.Wait()`); and once the context
is done no further follower is dispatched.  However, the `ctx.Done()`
branch inside the loop returns from `processLoop` immediately, without
waiting, so already-dispatched writes may still be in flight when control
returns on the cancellation path. -/
theorem fanout_waits_amended (followers : List String)
    (ls : List Worker.FanLabel) (s : Worker.FanState)
    (h : Worker.fanRun ls (Worker.fanInit followers) = some s) :
    (s.phase = Worker.FanPhase.returnedNormal → s.inFlight = []) ∧
    (s.ctxDone = true →
      ∀ t, Worker.fanStep Worker.FanLabel.dispatch s ≠ some t) := by
  refine ⟨fanRun_normal_inv ls _ s (fun _ => rfl) h, ?_⟩
  intro hctx t ht
  simp only [Worker.fanStep] at ht
  rcases hp : s.pending with _ | ⟨u, rest⟩
  · rw [hp] at ht
    simp at ht
  · rw [hp] at ht
    split_ifs at ht with hc
    exact absurd hctx (by simp [hc.2.1])

/-- Witness for C8's amended theorem: a complete one-follower fan-out. -/
theorem fanout_waits_amended_witness :
    ((⟨false, [], [], ["u1"], Worker.FanPhase.returnedNormal⟩ :
        Worker.FanState).phase = Worker.FanPhase.returnedNormal →
      (⟨false, [], [], ["u1"], Worker.FanPhase.returnedNormal⟩ :
        Worker.FanState).inFlight = []) ∧
    ((⟨false, [], [], ["u1"], Worker.FanPhase.returnedNormal⟩ :
        Worker.FanState).ctxDone = true →
      ∀ t, Worker.fanStep Worker.FanLabel.dispatch
        ⟨false, [], [], ["u1"], Worker.FanPhase.returnedNormal⟩ ≠ some t) :=
  fanout_waits_amended ["u1"]
    [Worker.FanLabel.dispatch, Worker.FanLabel.loopExit,
     Worker.FanLabel.complete "u1", Worker.FanLabel.waitDone]
    ⟨false, [], [], ["u1"], Worker.FanPhase.returnedNormal⟩ (by decide)

/-- Invariant of the `Run` machine: the job channel is closed only after
`readLoop` has returned; `readLoop` returns only after cancellation; and a
finished coordinator has closed the channel and joined every worker. -/
def RunInv (s : Worker.RunState) : Prop :=
  (s.closed = true → s.readerDone = true) ∧
  (s.readerDone = true → s.ctxDone = true) ∧
  (s.finished = true → s.closed = true ∧ s.workers.all (fun b => b) = true)

/-- Helper: setting one worker's returned-flag keeps an all-returned pool
all-returned. -/
theorem workers_all_set_true (l : List Bool) (i : Nat)
    (hall : l.all (fun b => b) = true) :
    (l.set i true).all (fun b => b) = true := by
  rw [List.all_eq_true] at hall ⊢
  intro x hx
  rcases List.mem_or_eq_of_mem_set hx with hx' | rfl
  · exact hall x hx'
  · rfl

/-- Helper: one `Run` transition preserves `RunInv`. -/
theorem runStep_inv (l : Worker.RunLabel) (s t : Worker.RunState)
    (hInv : RunInv s) (h : Worker.runStep l s = some t) : RunInv t := by
  obtain ⟨h1, h2, h3⟩ := hInv
  cases l <;> simp only [Worker.runStep] at h <;>
    (repeat' split at h) <;>
    first
      | exact Option.noConfusion h
      | (obtain rfl := Option.some.inj h
         rename_i hc
         refine ⟨?_, ?_, ?_⟩ <;> intro hx <;> simp_all [RunInv, workers_all_set_true])

/-- Helper: one `Run` transition changes the closed flag exactly when the
label is `close`, and `close` is enabled only while the channel is still
open. -/
theorem runStep_closed_count (l : Worker.RunLabel) (s t : Worker.RunState)
    (h : Worker.runStep l s = some t) :
    (if t.closed then 1 else 0) =
      (if s.closed then 1 else 0) + (if l = Worker.RunLabel.close then 1 else 0) := by
  cases l <;> simp only [Worker.runStep] at h <;>
    (repeat' split at h) <;>
    first
      | exact Option.noConfusion h
      | (obtain rfl := Option.some.inj h; simp_all)

/-- Helper: `RunInv` along a whole label sequence. -/
theorem runExec_inv (ls : List Worker.RunLabel) (s t : Worker.RunState)
    (hInv : RunInv s) (h : Worker.runExec ls s = some t) : RunInv t := by
  induction ls generalizing s with
  | nil =>
    obtain rfl := Option.some.inj h
    exact hInv
  | cons l ls ih =>
    simp only [Worker.runExec] at h
    rcases Option.bind_eq_some.mp h with ⟨u, hstep, hrest⟩
    exact ih u (runStep_inv l s u hInv hstep) hrest

/-- Helper: the number of `close` labels executed equals the change of the
closed flag, so the channel is closed at most once along any run. -/
theorem runExec_closed_count (ls : List Worker.RunLabel) (s t : Worker.RunState)
    (h : Worker.runExec ls s = some t) :
    ls.count Worker.RunLabel.close + (if s.closed then 1 else 0) =
      (if t.closed then 1 else 0) := by
  induction ls generalizing s with
  | nil =>
    obtain rfl := Option.some.inj h
    simp
  | cons l ls ih =>
    simp only [Worker.runExec] at h
    rcases Option.bind_eq_some.mp h with ⟨u, hstep, hrest⟩
    have hstepcount := runStep_closed_count l s u hstep
    have hrestcount := ih u hrest
    rw [List.count_cons]
    by_cases hl : l = Worker.RunLabel.close <;> simp [hl] at hstepcount ⊢ <;> omega

/-- C3, counterexample: with one worker and one buffered payload, the
interleaving "push, cancel, `readLoop` returns, `close(jobs)`, the
worker's `ctx.Done()` branch fires, `wg.Wait()` returns" completes the
whole of `Run` while the payload is still sitting in the closed buffer:
after closure the worker returned via cancellation *without* draining the
remaining payload, so the universal drain part of the claim is false. -/
theorem run_undrained_buffer_counterexample :
    Worker.runExec
        [Worker.RunLabel.readPush 7, Worker.RunLabel.cancel,
         Worker.RunLabel.readerRet, Worker.RunLabel.close,
         Worker.RunLabel.retCtx 0, Worker.RunLabel.finish]
        (Worker.runInit 5 1) =
      some ⟨true, true, true, [7], 5, [true], true⟩ ∧
    (⟨true, true, true, [7], 5, [true], true⟩ : Worker.RunState).closed = true ∧
    (⟨true, true, true, [7], 5, [true], true⟩ : Worker.RunState).workers = [true] ∧
    (⟨true, true, true, [7], 5, [true], true⟩ : Worker.RunState).finished = true ∧
    (⟨true, true, true, [7], 5, [true], true⟩ : Worker.RunState).buffer ≠ [] := by
  refine ⟨by decide, rfl, rfl, rfl, by simp⟩

/-- C3, amended: in every run of `Worker.Run`, the job buffer is closed at
most once — exactly once in any run in which the coordinator finishes —
and only after the ingestion loop has returned, which itself happens only
after cancellation; once closed, no payload is ever pushed again; a worker
returns through the closed-channel branch only when the buffer is closed
and already empty, and through the other branch only on cancellation (in
which case buffered payloads may remain unconsumed); and the coordinator
finishes only after the close and after every worker has returned.  The
original claim's universal drain guarantee does not hold: on cancellation
a worker may return with payloads still buffered. -/
theorem run_close_once_after_reader_amended (cap n : Nat)
    (ls : List Worker.RunLabel) (s : Worker.RunState)
    (h : Worker.runExec ls (Worker.runInit cap n) = some s) :
    ls.count Worker.RunLabel.close ≤ 1 ∧
    (s.finished = true → ls.count Worker.RunLabel.close = 1) ∧
    (s.closed = true → s.readerDone = true ∧ s.ctxDone = true) ∧
    (s.closed = true → ∀ p, Worker.runStep (Worker.RunLabel.readPush p) s = none) ∧
    (∀ i t, Worker.runStep (Worker.RunLabel.retClosed i) s = some t →
      s.closed = true ∧ s.buffer = []) ∧
    (∀ i t, Worker.runStep (Worker.RunLabel.retCtx i) s = some t →
      s.ctxDone = true) ∧
    (s.finished = true → s.closed = true ∧ s.workers.all (fun b => b) = true) := by
  have hinit : RunInv (Worker.runInit cap n) := by
    refine ⟨?_, ?_, ?_⟩ <;> intro hx <;> simp [Worker.runInit] at hx
  have hinv := runExec_inv ls _ s hinit h
  obtain ⟨h1, h2, h3⟩ := hinv
  have hcount := runExec_closed_count ls _ s h
  simp [Worker.runInit] at hcount
  refine ⟨?_, ?_, fun hc => ⟨h1 hc, h2 (h1 hc)⟩, ?_, ?_, ?_, h3⟩
  · split at hcount <;> omega
  · intro hf
    have hc := (h3 hf).1
    simp [hc] at hcount
    omega
  · intro hc p
    simp [Worker.runStep, h1 hc]
  · intro i t ht
    simp only [Worker.runStep] at ht
    split_ifs at ht with hcond
    exact ⟨hcond.2.1, hcond.2.2⟩
  · intro i t ht
    simp only [Worker.runStep] at ht
    split_ifs at ht with hcond
    exact hcond.2

/-- Witness for C3's amended theorem: a graceful one-worker run that
pushes, cancels, closes, drains and finishes. -/
theorem run_close_once_after_reader_amended_witness :
    ([Worker.RunLabel.readPush 3, Worker.RunLabel.cancel,
      Worker.RunLabel.readerRet, Worker.RunLabel.close,
      Worker.RunLabel.recv 0, Worker.RunLabel.retClosed 0,
      Worker.RunLabel.finish].count Worker.RunLabel.close ≤ 1) ∧
    ((⟨true, true, true, [], 2, [true], true⟩ : Worker.RunState).finished = true →
      [Worker.RunLabel.readPush 3, Worker.RunLabel.cancel,
       Worker.RunLabel.readerRet, Worker.RunLabel.close,
       Worker.RunLabel.recv 0, Worker.RunLabel.retClosed 0,
       Worker.RunLabel.finish].count Worker.RunLabel.close = 1) ∧
    ((⟨true, true, true, [], 2, [true], true⟩ : Worker.RunState).closed = true →
      (⟨true, true, true, [], 2, [true], true⟩ : Worker.RunState).readerDone = true ∧
      (⟨true, true, true, [], 2, [true], true⟩ : Worker.RunState).ctxDone = true) ∧
    ((⟨true, true, true, [], 2, [true], true⟩ : Worker.RunState).closed = true →
      ∀ p, Worker.runStep (Worker.RunLabel.readPush p)
        ⟨true, true, true, [], 2, [true], true⟩ = none) ∧
    (∀ i t, Worker.runStep (Worker.RunLabel.retClosed i)
        ⟨true, true, true, [], 2, [true], true⟩ = some t →
      (⟨true, true, true, [], 2, [true], true⟩ : Worker.RunState).closed = true ∧
      (⟨true, true, true, [], 2, [true], true⟩ : Worker.RunState).buffer = []) ∧
    (∀ i t, Worker.runStep (Worker.RunLabel.retCtx i)
        ⟨true, true, true, [], 2, [true], true⟩ = some t →
      (⟨true, true, true, [], 2, [true], true⟩ : Worker.RunState).ctxDone = true) ∧
    ((⟨true, true, true, [], 2, [true], true⟩ : Worker.RunState).finished = true →
      (⟨true, true, true, [], 2, [true], true⟩ : Worker.RunState).closed = true ∧
      (⟨true, true, true, [], 2, [true], true⟩ : Worker.RunState).workers.all
        (fun b => b) = true) :=
  run_close_once_after_reader_amended 2 1
    [Worker.RunLabel.readPush 3, Worker.RunLabel.cancel,
     Worker.RunLabel.readerRet, Worker.RunLabel.close,
     Worker.RunLabel.recv 0, Worker.RunLabel.retClosed 0,
     Worker.RunLabel.finish]
    ⟨true, true, true, [], 2, [true], true⟩ (by decide)
